import Mathlib

/-!
# Verification of the XSL transformation-engine orchestration pipeline

Shallow embedding of the server-side pipeline of the repository
(`src/server/storage.ts`, `src/server/saxonProcessor.ts`, shared schema):
the job registry (`MemStorage`), the dependency resolver
(`resolveDependencies`), the content normalizer (`preprocessXslContent`),
the two-engine executor (`processXsltTransformation`) and the job
controller (`processTransformation`), together with proofs of the
spec-level properties about them.

Conventions:
* TypeScript strings are Lean `String`s; nullable fields are `Option`s.
* `Date` timestamps are modelled as `Nat` values supplied by an abstract
  clock.
* JavaScript regular-expression replacement loops are modelled as
  left-to-right scanners over `List Char` that reproduce the
  leftmost-match, greedy/lazy and `lastIndex` semantics of
  `String.replace`/`RegExp.exec` with the `g` flag.
* Asynchronous steps are modelled denotationally: a step that races a
  timer is a function of the inner step's completion time.
-/

namespace XT

/-! ## Data model (shared schema: `files`, `transformations`, `dependencies`) -/

/-- A stored file record (schema table `files`).  `uploadedAt`/`validatedAt`
are abstract clock values. -/
structure File where
  id : String
  filename : String
  originalName : String
  mimeType : String
  size : String
  path : String
  uploadedAt : Nat
  validationStatus : String
  validationError : Option String
  validatedAt : Option Nat
deriving Repr, DecidableEq

/-- A transformation job record (schema table `transformations`). -/
structure Transformation where
  id : String
  xmlFileId : String
  xslFileId : String
  xsdFileId : Option String
  status : String
  progress : Option String
  statusMessage : Option String
  resultPath : Option String
  errorMessage : Option String
  processingTime : Option String
  outputSize : Option String
  createdAt : Nat
  completedAt : Option Nat
deriving Repr, DecidableEq

/-- A dependency record (schema table `dependencies`). -/
structure Dependency where
  id : String
  xslFileId : String
  dependencyPath : String
  resolvedFileId : Option String
  status : String
deriving Repr, DecidableEq

/-- A `Partial<Transformation>` update object as passed to
`MemStorage.updateTransformation`; `some v` means the key is present. -/
structure TransformationUpdate where
  status : Option String := none
  progress : Option String := none
  statusMessage : Option String := none
  resultPath : Option String := none
  errorMessage : Option String := none
  processingTime : Option String := none
  outputSize : Option String := none
deriving Repr, DecidableEq

/-- `MemStorage.updateTransformation` (storage.ts lines 94-105): spread the
present update keys over the record, and stamp `completedAt` with the
current time whenever the update carries a terminal status. -/
def updateTransformation (now : Nat) (t : Transformation) (u : TransformationUpdate) :
    Transformation :=
  let merged : Transformation :=
    { t with
      status := u.status.getD t.status
      progress := match u.progress with | some p => some p | none => t.progress
      statusMessage := match u.statusMessage with | some m => some m | none => t.statusMessage
      resultPath := match u.resultPath with | some r => some r | none => t.resultPath
      errorMessage := match u.errorMessage with | some e => some e | none => t.errorMessage
      processingTime := match u.processingTime with | some p => some p | none => t.processingTime
      outputSize := match u.outputSize with | some o => some o | none => t.outputSize }
  if u.status = some "completed" ∨ u.status = some "failed" then
    { merged with completedAt := some now }
  else
    merged

/-- `MemStorage.createTransformation` as invoked from the `/api/transform`
route (storage.ts lines 67-84 and 853-863): insert object carries
`status: 'queued'`, `progress: '0'` and no messages/results. -/
def createTransformation (id : String) (now : Nat)
    (xmlFileId xslFileId : String) (xsdFileId : Option String) : Transformation :=
  { id := id
    xmlFileId := xmlFileId
    xslFileId := xslFileId
    xsdFileId := xsdFileId
    status := "queued"
    progress := some "0"
    statusMessage := none
    resultPath := none
    errorMessage := none
    processingTime := none
    outputSize := none
    createdAt := now
    completedAt := none }

/-- `MemStorage.updateFileValidation` (storage.ts lines 137-149). -/
def updateFileValidation (now : Nat) (f : File) (status : String)
    (error : Option String) : File :=
  { f with
    validationStatus := status
    validationError := error
    validatedAt := some now }

/-! ## Directive scanner

Embedding of the regular expression
`/<xsl:(include|import)\s+href=["']([^"']+)["']/g` used by
`resolveDependencies` (storage.ts line 537), executed with
`RegExp.exec` in a loop: leftmost matches, scanning resuming at the end
of each match. -/

/-- JavaScript `\s` on the ASCII range: space, tab, line feed, vertical
tab, form feed, carriage return. -/
def isJsSpace (c : Char) : Bool :=
  c = ' ' || c = '\t' || c = '\n' || c = Char.ofNat 11 || c = Char.ofNat 12 || c = '\r'

/-- A quote character, i.e. the character class `["']`. -/
def isQuote (c : Char) : Bool :=
  c = '"' || c = '\''

/-- Consume an exact literal (case-sensitively); return the rest. -/
def dropLit : List Char → List Char → Option (List Char)
  | [], cs => some cs
  | _ :: _, [] => none
  | l :: ls, c :: cs => if c = l then dropLit ls cs else none

theorem dropLit_length : ∀ (ls cs r : List Char), dropLit ls cs = some r →
    r.length + ls.length = cs.length := by
  intro ls
  induction ls with
  | nil => intro cs r h; simp [dropLit] at h; simp [h]
  | cons l ls ih =>
    intro cs r h
    cases cs with
    | nil => simp [dropLit] at h
    | cons c cs =>
      simp only [dropLit] at h
      split at h
      · have := ih cs r h
        simp [List.length_cons]
        omega
      · exact absurd h (by simp)

/-- Consume `\s+` (one or more whitespace characters, maximal munch —
equivalent to the regex since the following literal starts with a
non-space character). -/
def dropSpaces1 : List Char → Option (List Char)
  | [] => none
  | c :: cs => if isJsSpace c then some (cs.dropWhile isJsSpace) else none

theorem length_dropWhile_le (p : Char → Bool) :
    ∀ (l : List Char), (l.dropWhile p).length ≤ l.length := by
  intro l
  induction l with
  | nil => simp [List.dropWhile]
  | cons c cs ih =>
    simp only [List.dropWhile]
    split
    · exact Nat.le_succ_of_le ih
    · simp

theorem dropSpaces1_length : ∀ (cs r : List Char), dropSpaces1 cs = some r →
    r.length < cs.length := by
  intro cs r h
  cases cs with
  | nil => simp [dropSpaces1] at h
  | cons c cs =>
    simp only [dropSpaces1] at h
    split at h
    · cases h
      calc (cs.dropWhile isJsSpace).length ≤ cs.length := length_dropWhile_le isJsSpace cs
        _ < (c :: cs).length := by simp
    · exact absurd h (by simp)

/-- Consume `["']([^"']+)["']`: an opening quote, a non-empty greedy run
of non-quote characters (the captured path), and a closing quote of
either kind.  Returns the captured path and the rest. -/
def readQuoted (cs : List Char) : Option (String × List Char) :=
  match cs with
  | [] => none
  | q :: cs' =>
    if isQuote q then
      let body := cs'.takeWhile (fun c => !isQuote c)
      let rest := cs'.dropWhile (fun c => !isQuote c)
      if body.isEmpty then none
      else
        match rest with
        | [] => none
        | _ :: rest' => some (String.mk body, rest')
    else none

theorem readQuoted_length : ∀ (cs : List Char) (p : String) (r : List Char),
    readQuoted cs = some (p, r) → r.length < cs.length := by
  intro cs p r h
  cases cs with
  | nil => simp [readQuoted] at h
  | cons q cs' =>
    simp only [readQuoted] at h
    split at h
    · split at h
      · exact absurd h (by simp)
      · split at h
        · exact absurd h (by simp)
        · rename_i rest' heq
          cases h
          have hdrop : (cs'.dropWhile fun c => !isQuote c).length ≤ cs'.length :=
            length_dropWhile_le _ cs'
          rw [heq] at hdrop
          simp at hdrop ⊢
          omega
    · exact absurd h (by simp)

/-- The literal `href=` of the directive regex. -/
def hrefLit : List Char := "href=".data

/-- The literal `<xsl:include` of the directive regex. -/
def includeLit : List Char := "<xsl:include".data

/-- The literal `<xsl:import` of the directive regex. -/
def importLit : List Char := "<xsl:import".data

/-- After the directive keyword: match `\s+`, the literal `href=`, then
the quoted path. -/
def matchHrefTail (rest : List Char) : Option (String × List Char) :=
  match dropSpaces1 rest with
  | none => none
  | some r1 =>
    match dropLit hrefLit r1 with
    | none => none
    | some r2 => readQuoted r2

theorem matchHrefTail_length : ∀ (rest : List Char) (p : String) (r : List Char),
    matchHrefTail rest = some (p, r) → r.length < rest.length := by
  intro rest p r htail
  unfold matchHrefTail at htail
  split at htail
  · exact absurd htail (by simp)
  · rename_i r1 h1
    split at htail
    · exact absurd htail (by simp)
    · rename_i r2 h2
      have l1 := dropSpaces1_length rest r1 h1
      have l2 := dropLit_length _ r1 r2 h2
      have l3 := readQuoted_length r2 p r htail
      omega

/-- Try to match the directive regex at the head of the input: the
literal `<xsl:include` or `<xsl:import`, then `\s+href=`, then the
quoted path.  Returns the captured path and the input after the match. -/
def matchDirectiveAt (cs : List Char) : Option (String × List Char) :=
  match dropLit includeLit cs with
  | some rest => matchHrefTail rest
  | none =>
    match dropLit importLit cs with
    | some rest => matchHrefTail rest
    | none => none

theorem matchDirectiveAt_length : ∀ (cs : List Char) (p : String) (r : List Char),
    matchDirectiveAt cs = some (p, r) → r.length < cs.length := by
  intro cs p r h
  unfold matchDirectiveAt at h
  split at h
  · rename_i rest hinc
    have h1 := dropLit_length _ cs rest hinc
    have h2 := matchHrefTail_length rest p r h
    omega
  · split at h
    · rename_i rest himp
      have h1 := dropLit_length _ cs rest himp
      have h2 := matchHrefTail_length rest p r h
      omega
    · exact absurd h (by simp)

/-- The `exec` loop over the whole input: collect the captured `href`
paths of all directive matches, in order, resuming after each match.
Structural recursion on a fuel counter so the kernel can evaluate it;
every step consumes at least one input character
(`matchDirectiveAt_length`), so fuel equal to the input length always
suffices (`scanAux_fuel_sufficient`) and the fuel-exhausted case is
never reached from `scanDirectives`. -/
def scanAux : Nat → List Char → List String
  | 0, _ => []
  | _ + 1, [] => []
  | fuel + 1, c :: rest =>
    match matchDirectiveAt (c :: rest) with
    | some (p, rest2) => p :: scanAux fuel rest2
    | none => scanAux fuel rest

/-- Fuel beyond the input length never changes the scan: the cutoff in
`scanAux` is unreachable. -/
theorem scanAux_fuel_sufficient :
    ∀ (fuel : Nat) (cs : List Char), cs.length ≤ fuel →
      scanAux fuel cs = scanAux cs.length cs := by
  intro fuel
  induction fuel using Nat.strong_induction_on with
  | _ fuel ih =>
    intro cs hlen
    match fuel, cs with
    | 0, [] => rfl
    | 0, c :: rest => simp at hlen
    | fuel + 1, [] => rfl
    | fuel + 1, c :: rest =>
      simp only [scanAux]
      cases hm : matchDirectiveAt (c :: rest) with
      | some pr =>
        obtain ⟨p, rest2⟩ := pr
        have hlt := matchDirectiveAt_length _ _ _ hm
        simp only [List.length_cons] at hlen hlt ⊢
        have h1 : rest2.length ≤ fuel := by omega
        have h2 : rest2.length ≤ rest.length := by omega
        rw [ih fuel (by omega) rest2 h1, ih rest.length (by omega) rest2 h2]
      | none =>
        simp only [List.length_cons] at hlen ⊢
        rw [ih fuel (by omega) rest (by omega),
          ih rest.length (by omega) rest (by omega)]

/-- All include/import directive paths of a stylesheet text, in
declaration order (embedding of the scan in storage.ts lines 537-541). -/
def scanDirectives (s : String) : List String :=
  scanAux s.data.length s.data

/-! ## Dependency resolution (`resolveDependencies`, storage.ts 530-572) -/

/-- JavaScript `String.prototype.includes`. -/
def jsIncludes (s sub : String) : Bool :=
  decide (sub.data <:+: s.data)

/-- Node `path.basename` on POSIX paths: the component after the last
slash (Node additionally strips trailing slashes, which no reference
path used here carries). -/
def baseName (p : String) : String :=
  String.mk (p.data.foldl (fun acc c => if c = '/' then [] else acc ++ [c]) [])

/-- JavaScript `String.prototype.endsWith`. -/
def jsEndsWith (s suf : String) : Bool :=
  decide (suf.data <:+ s.data)

/-- JavaScript `String.prototype.startsWith`. -/
def jsStartsWith (s pre : String) : Bool :=
  decide (pre.data <+: s.data)

/-- The matcher used by `resolveDependencies` to resolve a directive
(storage.ts line 553): the first stored file whose `originalName` or
stored `filename` equals the literal reference string. -/
def findDependencyFile (pool : List File) (p : String) : Option File :=
  pool.find? (fun f => f.originalName = p || f.filename = p)

/-- The matcher used by `resolveXslIncludes` on the fallback text path
(storage.ts lines 402-412): literal name, base filename, stored
filename, then the two W2/Style fuzzy-family rules. -/
def findIncludeFile (pool : List File) (p : String) : Option File :=
  pool.find? (fun f =>
    f.originalName = p ||
    f.originalName = baseName p ||
    f.filename = p ||
    (jsIncludes p "W2" && jsIncludes p "Style.xsl" &&
      jsIncludes f.originalName "W2" && jsIncludes f.originalName "Style.xsl") ||
    (jsEndsWith p "Style.xsl" && jsEndsWith f.originalName "Style.xsl" &&
      jsStartsWith p "W2" && jsStartsWith f.originalName "W2"))

/-- Modelled from the spec (claim C7): the resolution strategy the spec
ascribes to Dependency records — exact match by literal reference
string, then exact match by base filename, then the W2/Style
name-normalization fuzzy fallback. -/
def specClaimedFind (pool : List File) (p : String) : Option File :=
  match pool.find? (fun f => f.originalName = p || f.filename = p) with
  | some f => some f
  | none =>
    match pool.find? (fun f => f.originalName = baseName p) with
    | some f => some f
    | none =>
      pool.find? (fun f =>
        (jsIncludes p "W2" && jsIncludes p "Style.xsl" &&
          jsIncludes f.originalName "W2" && jsIncludes f.originalName "Style.xsl") ||
        (jsEndsWith p "Style.xsl" && jsEndsWith f.originalName "Style.xsl" &&
          jsStartsWith p "W2" && jsStartsWith f.originalName "W2"))

/-- A `Partial<Dependency>` update as passed to
`MemStorage.updateDependency`. -/
structure DependencyUpdate where
  resolvedFileId : Option (Option String) := none
  status : Option String := none
deriving Repr, DecidableEq

/-- `MemStorage.updateDependency` (storage.ts 128-135) on the dependency
store, modelled as an insertion-ordered association list keyed by id. -/
def updateDependency (st : List Dependency) (id : String) (u : DependencyUpdate) :
    List Dependency :=
  st.map (fun d =>
    if d.id = id then
      { d with
        resolvedFileId := u.resolvedFileId.getD d.resolvedFileId
        status := u.status.getD d.status }
    else d)

/-- The record `resolveDependencies` leaves in the store for directive
path `p` (created `pending`, then updated to `resolved` with the matched
file's id, or to `missing`). -/
def finishedDep (idGen : Nat → String) (xslFileId : String) (pool : List File)
    (n : Nat) (p : String) : Dependency :=
  match findDependencyFile pool p with
  | some f =>
    { id := idGen n
      xslFileId := xslFileId
      dependencyPath := p
      resolvedFileId := some f.id
      status := "resolved" }
  | none =>
    { id := idGen n
      xslFileId := xslFileId
      dependencyPath := p
      resolvedFileId := none
      status := "missing" }

/-- The `pending` Dependency record `resolveDependencies` creates for
directive path `p` (storage.ts 544-549), with the fresh id `idGen n`. -/
def pendingDep (idGen : Nat → String) (xslFileId : String) (n : Nat) (p : String) :
    Dependency :=
  { id := idGen n
    xslFileId := xslFileId
    dependencyPath := p
    resolvedFileId := none
    status := "pending" }

/-- The directive loop of `resolveDependencies` (storage.ts 540-566):
for each directive path, create a `pending` Dependency record with a
fresh id, try to resolve it against the candidate pool, update the
record to its terminal status, and accumulate an error string per miss. -/
def resolveDepsAux (idGen : Nat → String) (xslFileId : String) (pool : List File) :
    List String → List Dependency → List String → Nat → List Dependency × List String
  | [], st, errs, _ => (st, errs)
  | p :: ps, st, errs, n =>
    match findDependencyFile pool p with
    | some f =>
      resolveDepsAux idGen xslFileId pool ps
        (updateDependency (st ++ [pendingDep idGen xslFileId n p]) (idGen n)
          { resolvedFileId := some (some f.id), status := some "resolved" })
        errs (n + 1)
    | none =>
      resolveDepsAux idGen xslFileId pool ps
        (updateDependency (st ++ [pendingDep idGen xslFileId n p]) (idGen n)
          { status := some "missing" })
        (errs ++ ["Missing dependency: " ++ p]) (n + 1)

/-- `resolveDependencies(xslFileId, xslPath)` (storage.ts 530-572), with
the stylesheet bytes already read into `xslContent`: returns the updated
dependency store and the accumulated error list.  `idGen` models
`randomUUID` id generation. -/
def resolveDependencies (idGen : Nat → String) (xslFileId : String)
    (pool : List File) (store : List Dependency) (xslContent : String) :
    List Dependency × List String :=
  resolveDepsAux idGen xslFileId pool (scanDirectives xslContent) store [] 0

/-- The ids `randomUUID` hands to the resolution pass are pairwise
distinct and collide with no pre-existing record. -/
def FreshIds (idGen : Nat → String) (store : List Dependency) : Prop :=
  (∀ n, ∀ d ∈ store, d.id ≠ idGen n) ∧ Function.Injective idGen

/-- The records a resolution pass appends, one per directive path in
order, numbered from `n`. -/
def finishedDeps (idGen : Nat → String) (xslFileId : String) (pool : List File) :
    List String → Nat → List Dependency
  | [], _ => []
  | p :: ps, n =>
    finishedDep idGen xslFileId pool n p :: finishedDeps idGen xslFileId pool ps (n + 1)

/-- The error strings a resolution pass accumulates: one per missing
directive path, in order. -/
def missingErrors (pool : List File) : List String → List String
  | [] => []
  | p :: ps =>
    match findDependencyFile pool p with
    | some _ => missingErrors pool ps
    | none => ("Missing dependency: " ++ p) :: missingErrors pool ps

theorem updateDependency_append_pending (st : List Dependency)
    (idGen : Nat → String) (xslFileId : String) (n : Nat) (p : String)
    (u : DependencyUpdate) (hfresh : ∀ d ∈ st, d.id ≠ idGen n) :
    updateDependency (st ++ [pendingDep idGen xslFileId n p]) (idGen n) u =
      st ++ [{ id := idGen n
               xslFileId := xslFileId
               dependencyPath := p
               resolvedFileId := u.resolvedFileId.getD none
               status := u.status.getD "pending" }] := by
  unfold updateDependency
  rw [List.map_append]
  congr 1
  · have hid : ∀ d ∈ st,
        (if d.id = idGen n then
          { d with
            resolvedFileId := u.resolvedFileId.getD d.resolvedFileId
            status := u.status.getD d.status }
        else d) = d := by
      intro d hd
      simp [hfresh d hd]
    calc st.map _ = st.map id := List.map_congr_left hid
      _ = st := st.map_id
  · simp [pendingDep]

theorem resolveDepsAux_spec (idGen : Nat → String) (xslFileId : String)
    (pool : List File) (ps : List String) :
    ∀ (st : List Dependency) (errs : List String) (n : Nat),
      Function.Injective idGen →
      (∀ m, n ≤ m → ∀ d ∈ st, d.id ≠ idGen m) →
      resolveDepsAux idGen xslFileId pool ps st errs n =
        (st ++ finishedDeps idGen xslFileId pool ps n,
          errs ++ missingErrors pool ps) := by
  induction ps with
  | nil => intro st errs n _ _; simp [resolveDepsAux, finishedDeps, missingErrors]
  | cons p ps ih =>
    intro st errs n hinj hfresh
    have hfreshn : ∀ d ∈ st, d.id ≠ idGen n := fun d hd => hfresh n (Nat.le_refl n) d hd
    have hfresh2 : ∀ m, n + 1 ≤ m →
        ∀ d ∈ st ++ [finishedDep idGen xslFileId pool n p], d.id ≠ idGen m := by
      intro m hm d hd
      rcases List.mem_append.mp hd with hin | hnew
      · exact hfresh m (Nat.le_of_succ_le hm) d hin
      · have hd' : d = finishedDep idGen xslFileId pool n p := by simpa using hnew
        subst hd'
        have hne : n ≠ m := by omega
        unfold finishedDep
        cases findDependencyFile pool p <;>
          exact fun h => hne (hinj h)
    simp only [resolveDepsAux]
    split
    · rename_i f hfind
      rw [updateDependency_append_pending _ _ _ _ _ _ hfreshn]
      have hfin : ({ id := idGen n
                     xslFileId := xslFileId
                     dependencyPath := p
                     resolvedFileId :=
                       (({ resolvedFileId := some (some f.id)
                           status := some "resolved" } :
                         DependencyUpdate)).resolvedFileId.getD none
                     status :=
                       (({ resolvedFileId := some (some f.id)
                           status := some "resolved" } :
                         DependencyUpdate)).status.getD "pending" } : Dependency) =
          finishedDep idGen xslFileId pool n p := by
        simp [finishedDep, hfind]
      rw [hfin, ih _ _ _ hinj hfresh2]
      simp only [finishedDeps, missingErrors, hfind]
      simp
    · rename_i hfind
      rw [updateDependency_append_pending _ _ _ _ _ _ hfreshn]
      have hfin : ({ id := idGen n
                     xslFileId := xslFileId
                     dependencyPath := p
                     resolvedFileId :=
                       (({ status := some "missing" } :
                         DependencyUpdate)).resolvedFileId.getD none
                     status :=
                       (({ status := some "missing" } :
                         DependencyUpdate)).status.getD "pending" } : Dependency) =
          finishedDep idGen xslFileId pool n p := by
        simp [finishedDep, hfind]
      rw [hfin, ih _ _ _ hinj hfresh2]
      simp only [finishedDeps, missingErrors, hfind]
      simp

/-! ## Validation results and the upload-time timeout wrapper -/

/-- The `{ isValid, error? }` result shape shared by all the validation
helpers in storage.ts. -/
structure ValidationResult where
  isValid : Bool
  error : Option String := none
deriving Repr, DecidableEq

/-- Denotation of the upload validation timeout wrapper
(storage.ts 621-651): a promise resolved either by a 10000 ms timer with
a timeout failure, or by the inner validation completing at `tMs`
milliseconds with result `r` and clearing the timer; the earlier
resolution wins. -/
def validationWithTimeout (tMs : Nat) (r : ValidationResult) : ValidationResult :=
  if tMs < 10000 then r
  else { isValid := false, error := some "Validation timeout after 10 seconds" }

/-- Denotation of the XSD validation stage of `processTransformation`
(storage.ts line 954): `validateXmlAgainstXsd` is awaited directly with
no timeout wrapper, so its result is used whatever time `tMs` it takes. -/
def xsdStageValidation (_tMs : Nat) (r : ValidationResult) : ValidationResult :=
  r

/-! ## The two-engine executor (`processXsltTransformation`, storage.ts 312-386)

The Saxon (primary) attempt — XML well-formedness validation, stylesheet
analysis, compilation and execution — is summarised by an
`Except String Unit`: `.error e` when any of its steps throws with
message `e`, `.ok ()` when it writes the output.  The fallback attempt
(dependency text substitution via `resolveXslIncludes`, normalization
via `preprocessXslContent`, then the `xslt-processor` run) is summarised
the same way. -/

/-- Outcomes of the primary (Saxon) attempt and of the fallback attempt
for one executor invocation. -/
instance : DecidableEq (Except String Unit) := fun a b =>
  match a, b with
  | Except.ok u, Except.ok v => isTrue (by cases u; cases v; rfl)
  | Except.error e, Except.error f =>
    if h : e = f then isTrue (by rw [h])
    else isFalse (by intro hh; cases hh; exact h rfl)
  | Except.ok _, Except.error _ => isFalse (by intro h; cases h)
  | Except.error _, Except.ok _ => isFalse (by intro h; cases h)

structure EngineEnv where
  primary : Except String Unit
  fallback : Except String Unit
deriving Repr, DecidableEq

/-- `processXsltTransformation` (storage.ts 312-386): run the primary
engine; on failure run the fallback; if the fallback also fails,
re-throw the original primary error (line 383).  A fallback success
returns exactly like a primary success — no marker of any kind. -/
def processXsltTransformation (e : EngineEnv) : Except String Unit :=
  match e.primary with
  | Except.ok _ => Except.ok ()
  | Except.error saxonError =>
    match e.fallback with
    | Except.ok _ => Except.ok ()
    | Except.error _ => Except.error saxonError

/-! ## The job controller (`processTransformation`, storage.ts 931-1042)

The pipeline run is modelled as the sequence of
`storage.updateTransformation` calls it issues, as a function of the
request options and of the outcomes of its stages; the job states a
reader of the registry can observe are the folds of those updates over
the freshly created job. -/

/-- The option flags of one transformation request, as received by
`processTransformation`; `hasXsdFile` models `options.xsdFile` being
present. -/
structure PipelineOpts where
  validateXml : Bool
  resolveDeps : Bool
  generatePreview : Bool
  validateWithXsd : Bool
  hasXsdFile : Bool
deriving Repr, DecidableEq

/-- The environment of one pipeline run: outcomes of the externally
observable stages and the formatted values interpolated into messages. -/
structure PipelineEnv where
  /-- Result of `validateXmlAgainstXsd` for this run. -/
  xsdResult : ValidationResult
  /-- Engine outcomes for the `processXsltTransformation` call. -/
  engine : EngineEnv
  /-- Stylesheet text read by `resolveDependencies`. -/
  xslContent : String
  /-- `storage.getAllFiles()` during dependency resolution. -/
  pool : List File
  /-- Dependency store before the run. -/
  depStore : List Dependency
  /-- Fresh-id source for created dependency records. -/
  idGen : Nat → String
  /-- Id of the stylesheet file (`xslFile.id`). -/
  xslFileId : String
  /-- `xmlFile.originalName`. -/
  xmlName : String
  /-- `xslFile.originalName`. -/
  xslName : String
  /-- `options.xsdFile.originalName`. -/
  xsdName : String
  /-- The generated output path `uploads/<uuid>_transformed.html`. -/
  outputPath : String
  /-- `(stats.size / 1024).toFixed(1)`. -/
  outputKB : String
  /-- `((Date.now() - startTime) / 1000).toFixed(1)`. -/
  elapsedS : String

/-- The dependency-resolution errors of a run (the value of
`await resolveDependencies(xslFile.id, xslFile.path)` at line 979). -/
def depErrorsOf (env : PipelineEnv) : List String :=
  (resolveDependencies env.idGen env.xslFileId env.pool env.depStore env.xslContent).2

/-- `Array.prototype.join(sep)` on a list of strings. -/
def joinSep (sep : String) : List String → String
  | [] => ""
  | [s] => s
  | s :: rest => s ++ sep ++ joinSep sep rest

/-- The final three updates once execution is reached
(storage.ts 989-1041): the progress-50/40 and progress-60 checkpoints,
then either the 85% checkpoint and the completed update, or the catch
block's failed update with `progress: '0'`. -/
def execUpdates (opts : PipelineOpts) (env : PipelineEnv) : List TransformationUpdate :=
  { progress := some (if opts.validateWithXsd || opts.resolveDeps then "50" else "40")
    statusMessage := some "Parsing XML and XSL files..." } ::
  { progress := some "60"
    statusMessage := some ("Executing XSLT transformation (" ++ env.xmlName ++
      " + " ++ env.xslName ++ ")...") } ::
  match processXsltTransformation env.engine with
  | Except.ok _ =>
    [{ progress := some "85", statusMessage := some "Finalizing HTML output..." },
     { status := some "completed"
       progress := some "100"
       statusMessage := some ("✅ Transformation complete! Generated " ++ env.outputKB ++
         " KB output in " ++ env.elapsedS ++ "s")
       resultPath := some env.outputPath
       processingTime := some (env.elapsedS ++ "s")
       outputSize := some (env.outputKB ++ " KB") }]
  | Except.error e =>
    [{ status := some "failed"
       progress := some "0"
       statusMessage := some "Transformation failed"
       errorMessage := some e }]

/-- The updates from the dependency-resolution stage on
(storage.ts 972-987): the 35/30 checkpoint, then either the
dependency-failure update (progress key absent) or the rest of the run. -/
def depUpdates (opts : PipelineOpts) (env : PipelineEnv) : List TransformationUpdate :=
  if opts.resolveDeps then
    { progress := some (if opts.validateWithXsd then "35" else "30")
      statusMessage := some "Resolving XSL dependencies and imports..." } ::
    (if depErrorsOf env = [] then execUpdates opts env
     else [{ status := some "failed"
             errorMessage := some (joinSep "; " (depErrorsOf env)) }])
  else execUpdates opts env

/-- All updates `processTransformation` issues for one run
(storage.ts 940-1041): the initial processing/10% update, the optional
XSD-validation stage, the optional dependency stage, then execution. -/
def pipelineUpdates (opts : PipelineOpts) (env : PipelineEnv) : List TransformationUpdate :=
  { status := some "processing"
    progress := some "10"
    statusMessage := some (if opts.validateWithXsd then "Preparing XSD validation..."
      else "Preparing transformation...") } ::
  (if opts.validateWithXsd && opts.hasXsdFile then
    { progress := some "15"
      statusMessage := some ("Validating XML against XSD schema (" ++ env.xsdName ++ ")...") } ::
    (if env.xsdResult.isValid then
      { progress := some "25"
        statusMessage := some "✅ XSD validation passed - XML schema compliant" } ::
      depUpdates opts env
     else
      [{ status := some "failed"
         errorMessage := some ("XSD Validation Failed: " ++ env.xsdResult.error.getD "undefined") }])
   else depUpdates opts env)

/-- Fold the update sequence over a job, recording every observable
state (the created job first); `clock i` is the `new Date()` value of
the i-th update. -/
def observedStates (clock : Nat → Nat) : Nat → Transformation →
    List TransformationUpdate → List Transformation
  | _, t, [] => [t]
  | i, t, u :: us =>
    t :: observedStates clock (i + 1) (updateTransformation (clock i) t u) us

/-- The sequence of job states a run produces, starting from the job as
`createTransformation` stored it. -/
def runStates (clock : Nat → Nat) (t0 : Transformation)
    (opts : PipelineOpts) (env : PipelineEnv) : List Transformation :=
  observedStates clock 0 t0 (pipelineUpdates opts env)

/-! ## Pipeline run properties -/

/-- Numeric value of a decimal progress string. -/
def strToNat (s : String) : Nat :=
  s.data.foldl (fun acc c => acc * 10 + (c.toNat - 48)) 0

/-- The numeric progress of a job state (`'0'` when unset). -/
def progressNat (t : Transformation) : Nat :=
  strToNat (t.progress.getD "0")

/-- Progress never decreases along a sequence of observed states. -/
def ProgressMono (l : List Transformation) : Prop :=
  List.Chain' (fun a b => progressNat a ≤ progressNat b) l

/-- Executable check for `ProgressMono`. -/
def progressMonoB : List Transformation → Bool
  | [] => true
  | [_] => true
  | a :: b :: rest => decide (progressNat a ≤ progressNat b) && progressMonoB (b :: rest)

theorem progressMonoB_iff : ∀ (l : List Transformation),
    progressMonoB l = true ↔ ProgressMono l := by
  intro l
  induction l with
  | nil => simp [progressMonoB, ProgressMono]
  | cons a rest ih =>
    cases rest with
    | nil => simp [progressMonoB, ProgressMono]
    | cons b bs =>
      rw [show progressMonoB (a :: b :: bs) =
        (decide (progressNat a ≤ progressNat b) && progressMonoB (b :: bs)) from rfl]
      unfold ProgressMono at ih ⊢
      rw [List.chain'_cons, Bool.and_eq_true, decide_eq_true_iff, ih]

instance (l : List Transformation) : Decidable (ProgressMono l) :=
  decidable_of_iff _ (progressMonoB_iff l)

/-- Status, progress, error message of a state: the projection the
failure-behaviour lemmas talk about. -/
def spe (s : Transformation) : String × Option String × Option String :=
  (s.status, s.progress, s.errorMessage)

theorem resolveDepsAux_errors (idGen : Nat → String) (xslFileId : String)
    (pool : List File) (ps : List String) :
    ∀ (st : List Dependency) (errs : List String) (n : Nat),
      (resolveDepsAux idGen xslFileId pool ps st errs n).2 =
        errs ++ missingErrors pool ps := by
  induction ps with
  | nil => intro st errs n; simp [resolveDepsAux, missingErrors]
  | cons p ps ih =>
    intro st errs n
    simp only [resolveDepsAux]
    split
    · rename_i f hfind
      rw [ih]
      simp [missingErrors, hfind]
    · rename_i hfind
      rw [ih]
      simp [missingErrors, hfind]

/-- The dependency-resolution error list is exactly one `Missing
dependency` line per unresolvable directive, in order. -/
theorem depErrorsOf_eq (env : PipelineEnv) :
    depErrorsOf env = missingErrors env.pool (scanDirectives env.xslContent) := by
  unfold depErrorsOf resolveDependencies
  rw [resolveDepsAux_errors]
  simp

theorem mem_missingErrors (pool : List File) (p : String) :
    ∀ (ps : List String), p ∈ ps → findDependencyFile pool p = none →
      ("Missing dependency: " ++ p) ∈ missingErrors pool ps := by
  intro ps
  induction ps with
  | nil => intro h; simp at h
  | cons q ps ih =>
    intro hmem hnone
    rcases List.mem_cons.mp hmem with hq | hps
    · subst hq
      simp [missingErrors, hnone]
    · unfold missingErrors
      split
      · exact ih hps hnone
      · exact List.mem_cons_of_mem _ (ih hps hnone)

theorem joinSep_cons2 (sep a b : String) (bs : List String) :
    joinSep sep (a :: b :: bs) = a ++ sep ++ joinSep sep (b :: bs) := rfl

theorem mem_joinSep_contains (sep : String) :
    ∀ (l : List String) (s : String), s ∈ l → s.data <:+: (joinSep sep l).data := by
  intro l
  induction l with
  | nil => intro s h; simp at h
  | cons a rest ih =>
    intro s hmem
    rcases List.mem_cons.mp hmem with ha | hrest
    · subst ha
      cases rest with
      | nil => simp [joinSep]
      | cons b bs =>
        refine List.IsPrefix.isInfix ?_
        rw [joinSep_cons2]
        refine ⟨(sep ++ joinSep sep (b :: bs)).data, ?_⟩
        simp [String.data_append]
    · cases rest with
      | nil => simp at hrest
      | cons b bs =>
        have hsub := ih s hrest
        refine hsub.trans (List.IsSuffix.isInfix ?_)
        rw [joinSep_cons2]
        refine ⟨(a ++ sep).data, ?_⟩
        simp [String.data_append]

theorem runStates_iff100 (clock : Nat → Nat) (env : PipelineEnv)
    (id : String) (now : Nat) (xm xs : String) (xsd : Option String)
    (opts : PipelineOpts) :
    ∀ s ∈ runStates clock (createTransformation id now xm xs xsd) opts env,
      (s.progress = some "100" ↔ s.status = "completed") := by
  unfold runStates pipelineUpdates depUpdates execUpdates
  rcases opts with ⟨vx, rd, gp, vw, hx⟩
  by_cases hd : depErrorsOf env = [] <;>
  cases hv : env.xsdResult.isValid <;>
  cases hE : processXsltTransformation env.engine <;>
  cases rd <;> cases vw <;> cases hx <;>
    simp_all [observedStates, updateTransformation, createTransformation]

theorem runStates_mono_ok (clock : Nat → Nat) (env : PipelineEnv)
    (id : String) (now : Nat) (xm xs : String) (xsd : Option String)
    (opts : PipelineOpts)
    (hE : processXsltTransformation env.engine = Except.ok ()) :
    ProgressMono (runStates clock (createTransformation id now xm xs xsd) opts env) := by
  unfold runStates pipelineUpdates depUpdates execUpdates ProgressMono
  rcases opts with ⟨vx, rd, gp, vw, hx⟩
  by_cases hd : depErrorsOf env = [] <;>
  cases hv : env.xsdResult.isValid <;>
  cases rd <;> cases vw <;> cases hx <;>
    simp_all [observedStates, updateTransformation, createTransformation,
      progressNat, strToNat]

theorem runStates_final_xsdFail (clock : Nat → Nat) (env : PipelineEnv)
    (id : String) (now : Nat) (xm xs : String) (xsd : Option String)
    (opts : PipelineOpts)
    (hvw : opts.validateWithXsd = true) (hhx : opts.hasXsdFile = true)
    (hv : env.xsdResult.isValid = false) :
    ((runStates clock (createTransformation id now xm xs xsd) opts env).getLast?).map spe =
      some ("failed", some "15",
        some ("XSD Validation Failed: " ++ env.xsdResult.error.getD "undefined")) := by
  unfold runStates pipelineUpdates depUpdates execUpdates
  rcases opts with ⟨vx, rd, gp, vw, hx⟩
  cases vw <;> cases hx <;> simp_all [observedStates, updateTransformation,
    createTransformation, spe]

theorem runStates_final_depFail (clock : Nat → Nat) (env : PipelineEnv)
    (id : String) (now : Nat) (xm xs : String) (xsd : Option String)
    (opts : PipelineOpts)
    (hxsd : opts.validateWithXsd = true → opts.hasXsdFile = true →
      env.xsdResult.isValid = true)
    (hrd : opts.resolveDeps = true) (hd : depErrorsOf env ≠ []) :
    ((runStates clock (createTransformation id now xm xs xsd) opts env).getLast?).map spe =
      some ("failed", some (if opts.validateWithXsd then "35" else "30"),
        some (joinSep "; " (depErrorsOf env))) := by
  unfold runStates pipelineUpdates depUpdates execUpdates
  rcases opts with ⟨vx, rd, gp, vw, hx⟩
  cases vw <;> cases hx <;> cases hv : env.xsdResult.isValid <;>
    simp_all [observedStates, updateTransformation, createTransformation, spe]

theorem runStates_final_execFail (clock : Nat → Nat) (env : PipelineEnv)
    (id : String) (now : Nat) (xm xs : String) (xsd : Option String)
    (opts : PipelineOpts) (e : String)
    (hxsd : opts.validateWithXsd = true → opts.hasXsdFile = true →
      env.xsdResult.isValid = true)
    (hdeps : opts.resolveDeps = true → depErrorsOf env = [])
    (hE : processXsltTransformation env.engine = Except.error e) :
    ((runStates clock (createTransformation id now xm xs xsd) opts env).getLast?).map spe =
      some ("failed", some "0", some e) := by
  unfold runStates pipelineUpdates depUpdates execUpdates
  rcases opts with ⟨vx, rd, gp, vw, hx⟩
  cases vw <;> cases hx <;> cases rd <;> cases hv : env.xsdResult.isValid <;>
    simp_all [observedStates, updateTransformation, createTransformation, spe]

theorem runStates_final_ok (clock : Nat → Nat) (env : PipelineEnv)
    (id : String) (now : Nat) (xm xs : String) (xsd : Option String)
    (opts : PipelineOpts)
    (hxsd : opts.validateWithXsd = true → opts.hasXsdFile = true →
      env.xsdResult.isValid = true)
    (hdeps : opts.resolveDeps = true → depErrorsOf env = [])
    (hE : processXsltTransformation env.engine = Except.ok ()) :
    ((runStates clock (createTransformation id now xm xs xsd) opts env).getLast?).map
        (fun s => (s.status, s.progress, s.errorMessage, s.resultPath)) =
      some ("completed", some "100", none, some env.outputPath) := by
  unfold runStates pipelineUpdates depUpdates execUpdates
  rcases opts with ⟨vx, rd, gp, vw, hx⟩
  cases vw <;> cases hx <;> cases rd <;> cases hv : env.xsdResult.isValid <;>
    simp_all [observedStates, updateTransformation, createTransformation]

theorem runStates_terminal (clock : Nat → Nat) (env : PipelineEnv)
    (id : String) (now : Nat) (xm xs : String) (xsd : Option String)
    (opts : PipelineOpts) :
    (∀ s ∈ (runStates clock (createTransformation id now xm xs xsd) opts env).dropLast,
      s.completedAt = none ∧ s.status ≠ "completed" ∧ s.status ≠ "failed") ∧
    (∃ s, (runStates clock (createTransformation id now xm xs xsd) opts env).getLast? =
        some s ∧
      (s.status = "completed" ∨ s.status = "failed") ∧
      s.completedAt = some (clock
        ((runStates clock (createTransformation id now xm xs xsd) opts env).length - 2))) := by
  unfold runStates pipelineUpdates depUpdates execUpdates
  rcases opts with ⟨vx, rd, gp, vw, hx⟩
  by_cases hd : depErrorsOf env = [] <;>
  cases hv : env.xsdResult.isValid <;>
  cases hE : processXsltTransformation env.engine <;>
  cases rd <;> cases vw <;> cases hx <;>
    simp_all [observedStates, updateTransformation, createTransformation]

/-! ## Concrete fixtures for witnesses and counterexamples -/

/-- A job as the transform route creates it. -/
def t0c : Transformation := createTransformation "job1" 0 "xmlId" "xslId" none

/-- Request options: all flags off. -/
def optsOff : PipelineOpts := ⟨false, false, false, false, false⟩

/-- Request options: XSD validation on (with an XSD file supplied). -/
def optsXsd : PipelineOpts := ⟨false, false, false, true, true⟩

/-- Request options: dependency resolution on. -/
def optsDeps : PipelineOpts := ⟨false, true, false, false, false⟩

/-- Environment: both engines succeed, stylesheet with no directives. -/
def envOk : PipelineEnv :=
  { xsdResult := { isValid := true, error := none }
    engine := { primary := Except.ok (), fallback := Except.ok () }
    xslContent := ""
    pool := []
    depStore := []
    idGen := fun n => "dep" ++ toString n
    xslFileId := "xslId"
    xmlName := "a.xml"
    xslName := "b.xsl"
    xsdName := "c.xsd"
    outputPath := "uploads/out_transformed.html"
    outputKB := "1.0"
    elapsedS := "0.1" }

/-- Environment: the primary engine throws and the fallback also throws. -/
def envBothFail : PipelineEnv :=
  { envOk with engine :=
    { primary := Except.error "Saxon transformation failed: XPST0017"
      fallback := Except.error "nodeSetValue is not a function" } }

/-- Environment: the primary engine throws, the fallback succeeds. -/
def envFallbackOk : PipelineEnv :=
  { envOk with engine :=
    { primary := Except.error "Saxon transformation failed: XPST0017"
      fallback := Except.ok () } }

/-- Environment: the XSD compliance check reports a violation. -/
def envXsdBad : PipelineEnv :=
  { envOk with xsdResult :=
    { isValid := false, error := some "XSD does not appear to define the root element" } }

/-- Environment: the stylesheet references `Missing.xsl`, absent from the
pool. -/
def envMissingDep : PipelineEnv :=
  { envOk with xslContent := "<xsl:include href=\"Missing.xsl\"/>" }

/-! ## Claims -/

/-- C1, as stated, is false on the code: in a run whose execution stage
throws (both engines fail), the observed progress sequence is
0, 10, 40, 60 and then 0 — the catch block of `processTransformation`
(storage.ts 1033-1041) forces `progress: '0'` on the failed update, so
progress decreases and is not left at the last checkpoint. -/
theorem C1_progress_counterexample :
    (runStates (fun i => i) t0c optsOff envBothFail).map
        (fun s => (s.progress, s.status)) =
      [(some "0", "queued"), (some "10", "processing"), (some "40", "processing"),
        (some "60", "processing"), (some "0", "failed")] ∧
    ¬ ProgressMono (runStates (fun i => i) t0c optsOff envBothFail) := by
  constructor
  · decide
  · decide

/-- C1 (amended): over every pipeline run, (1) progress is `100` exactly
in `completed` states; (2) progress is non-decreasing whenever the
execution stage does not throw; (3) a schema-validation failure ends the
job `failed` with progress left at the 15% checkpoint and the triggering
error text recorded; (4) a dependency failure ends the job `failed` with
progress left at the 35%/30% checkpoint and the joined missing-path
errors recorded; (5) an execution failure ends the job `failed` with the
triggering error text recorded but progress forced to `0` rather than
left at the last checkpoint. -/
theorem C1_progress_invariants (clock : Nat → Nat) (env : PipelineEnv)
    (id : String) (now : Nat) (xm xs : String) (xsd : Option String)
    (opts : PipelineOpts) :
    (∀ s ∈ runStates clock (createTransformation id now xm xs xsd) opts env,
      (s.progress = some "100" ↔ s.status = "completed")) ∧
    (processXsltTransformation env.engine = Except.ok () →
      ProgressMono (runStates clock (createTransformation id now xm xs xsd) opts env)) ∧
    (opts.validateWithXsd = true → opts.hasXsdFile = true →
      env.xsdResult.isValid = false →
      ((runStates clock (createTransformation id now xm xs xsd) opts env).getLast?).map spe =
        some ("failed", some "15",
          some ("XSD Validation Failed: " ++ env.xsdResult.error.getD "undefined"))) ∧
    ((opts.validateWithXsd = true → opts.hasXsdFile = true →
        env.xsdResult.isValid = true) →
      opts.resolveDeps = true → depErrorsOf env ≠ [] →
      ((runStates clock (createTransformation id now xm xs xsd) opts env).getLast?).map spe =
        some ("failed", some (if opts.validateWithXsd then "35" else "30"),
          some (joinSep "; " (depErrorsOf env)))) ∧
    (∀ e, (opts.validateWithXsd = true → opts.hasXsdFile = true →
        env.xsdResult.isValid = true) →
      (opts.resolveDeps = true → depErrorsOf env = []) →
      processXsltTransformation env.engine = Except.error e →
      ((runStates clock (createTransformation id now xm xs xsd) opts env).getLast?).map spe =
        some ("failed", some "0", some e)) :=
  ⟨runStates_iff100 clock env id now xm xs xsd opts,
   fun hE => runStates_mono_ok clock env id now xm xs xsd opts hE,
   fun hvw hhx hv => runStates_final_xsdFail clock env id now xm xs xsd opts hvw hhx hv,
   fun hxsd hrd hd => runStates_final_depFail clock env id now xm xs xsd opts hxsd hrd hd,
   fun e hxsd hdeps hE =>
     runStates_final_execFail clock env id now xm xs xsd opts e hxsd hdeps hE⟩

/-- Witness for `C1_progress_invariants` at concrete runs: a run with
both engines succeeding is monotone, and a concrete failed XSD check
ends the job `failed` at the 15% checkpoint with the recorded error. -/
theorem C1_progress_invariants_witness :
    ProgressMono (runStates (fun i => i) t0c optsOff envOk) ∧
    ((runStates (fun i => i) t0c optsXsd envXsdBad).getLast?).map spe =
      some ("failed", some "15",
        some "XSD Validation Failed: XSD does not appear to define the root element") := by
  constructor
  · exact (C1_progress_invariants (fun i => i) envOk "job1" 0 "xmlId" "xslId" none
      optsOff).2.1 (by decide)
  · have h := (C1_progress_invariants (fun i => i) envXsdBad "job1" 0 "xmlId" "xslId" none
      optsXsd).2.2.1 rfl rfl (by decide)
    simpa using h

/-- C2: in every pipeline run, every observed state before the last has
no completion timestamp and a non-terminal status, and the last observed
state is terminal (`completed` or `failed`) with its completion
timestamp stamped exactly at the final update; no update follows a
terminal state, so a terminal status and its timestamp never change. -/
theorem C2_terminal_frozen (clock : Nat → Nat) (env : PipelineEnv)
    (id : String) (now : Nat) (xm xs : String) (xsd : Option String)
    (opts : PipelineOpts) :
    (∀ s ∈ (runStates clock (createTransformation id now xm xs xsd) opts env).dropLast,
      s.completedAt = none ∧ s.status ≠ "completed" ∧ s.status ≠ "failed") ∧
    (∃ s, (runStates clock (createTransformation id now xm xs xsd) opts env).getLast? =
        some s ∧
      (s.status = "completed" ∨ s.status = "failed") ∧
      s.completedAt = some (clock
        ((runStates clock (createTransformation id now xm xs xsd) opts env).length - 2))) :=
  runStates_terminal clock env id now xm xs xsd opts

/-- C3: the code records a fallback-engine success exactly like a
primary-engine success.  Replacing a successful primary run by a failed
primary plus successful fallback leaves the whole observable state
sequence of the job unchanged — no flag, marker or field distinguishes
the degraded-fidelity result, contradicting the requirement that it be
visibly distinguishable. -/
theorem C3_fallback_indistinguishable (clock : Nat → Nat) (t0 : Transformation)
    (opts : PipelineOpts) (env : PipelineEnv) (pe : String) :
    runStates clock t0 opts
        { env with engine := { primary := Except.error pe, fallback := Except.ok () } } =
      runStates clock t0 opts
        { env with engine := { primary := Except.ok (), fallback := Except.ok () } } := by
  unfold runStates pipelineUpdates depUpdates execUpdates depErrorsOf
  simp [processXsltTransformation]

/-- C4: when the primary engine fails with `pe` and the fallback also
fails, `processXsltTransformation` re-throws `pe` (storage.ts 383), and
the job's recorded failure reason is `pe`, not the fallback error. -/
theorem C4_primary_error_reported (clock : Nat → Nat) (env : PipelineEnv)
    (id : String) (now : Nat) (xm xs : String) (xsd : Option String)
    (opts : PipelineOpts) (pe fe : String)
    (hp : env.engine.primary = Except.error pe)
    (hf : env.engine.fallback = Except.error fe)
    (hxsd : opts.validateWithXsd = true → opts.hasXsdFile = true →
      env.xsdResult.isValid = true)
    (hdeps : opts.resolveDeps = true → depErrorsOf env = []) :
    processXsltTransformation env.engine = Except.error pe ∧
    ((runStates clock (createTransformation id now xm xs xsd) opts env).getLast?).map spe =
      some ("failed", some "0", some pe) := by
  have hE : processXsltTransformation env.engine = Except.error pe := by
    unfold processXsltTransformation
    rw [hp, hf]
  exact ⟨hE, runStates_final_execFail clock env id now xm xs xsd opts pe hxsd hdeps hE⟩

/-- Witness for `C4_primary_error_reported`: with both engines failing
concretely, the job records the Saxon error, not the fallback error. -/
theorem C4_primary_error_reported_witness :
    ((runStates (fun i => i) t0c optsOff envBothFail).getLast?).map spe =
      some ("failed", some "0", some "Saxon transformation failed: XPST0017") :=
  (C4_primary_error_reported (fun i => i) envBothFail "job1" 0 "xmlId" "xslId" none
    optsOff "Saxon transformation failed: XPST0017" "nodeSetValue is not a function"
    rfl rfl (by decide) (by decide)).2

/-- C5: when dependency resolution is requested and some directive path
resolves to no stored file, the job ends `failed`; its error message is
the `; `-join of one `Missing dependency: <path>` line per unresolvable
directive in order, and therefore contains every missing referenced
path as a substring. -/
theorem C5_missing_dependency_fails (clock : Nat → Nat) (env : PipelineEnv)
    (id : String) (now : Nat) (xm xs : String) (xsd : Option String)
    (opts : PipelineOpts)
    (hxsd : opts.validateWithXsd = true → opts.hasXsdFile = true →
      env.xsdResult.isValid = true)
    (hrd : opts.resolveDeps = true) (hd : depErrorsOf env ≠ []) :
    ((runStates clock (createTransformation id now xm xs xsd) opts env).getLast?).map spe =
      some ("failed", some (if opts.validateWithXsd then "35" else "30"),
        some (joinSep "; " (depErrorsOf env))) ∧
    depErrorsOf env = missingErrors env.pool (scanDirectives env.xslContent) ∧
    (∀ p ∈ scanDirectives env.xslContent, findDependencyFile env.pool p = none →
      ("Missing dependency: " ++ p).data <:+: (joinSep "; " (depErrorsOf env)).data) := by
  refine ⟨runStates_final_depFail clock env id now xm xs xsd opts hxsd hrd hd,
    depErrorsOf_eq env, ?_⟩
  intro p hp hnone
  have hmem : ("Missing dependency: " ++ p) ∈ depErrorsOf env := by
    rw [depErrorsOf_eq env]
    exact mem_missingErrors env.pool p _ hp hnone
  exact mem_joinSep_contains "; " _ _ hmem

/-- Witness for `C5_missing_dependency_fails`: a stylesheet referencing
`Missing.xsl` against an empty pool ends `failed` with the message
`Missing dependency: Missing.xsl`, which contains `Missing.xsl`. -/
theorem C5_missing_dependency_fails_witness :
    ((runStates (fun i => i) t0c optsDeps envMissingDep).getLast?).map spe =
      some ("failed", some "30", some "Missing dependency: Missing.xsl") ∧
    "Missing.xsl".data <:+: "Missing dependency: Missing.xsl".data := by
  have h := C5_missing_dependency_fails (fun i => i) envMissingDep "job1" 0
    "xmlId" "xslId" none optsDeps (by decide) rfl (by decide)
  constructor
  · have h1 := h.1
    have hde : depErrorsOf envMissingDep = ["Missing dependency: Missing.xsl"] := by decide
    rw [hde] at h1
    simpa [joinSep] using h1
  · decide

/-- One fresh-id source for dependency records: distinct ids, none of
which can collide with an empty pre-existing store. -/
def depIdGen : Nat → String := fun n => String.mk (List.replicate n 'a')

theorem depIdGen_fresh : FreshIds depIdGen [] :=
  ⟨fun _ d hd => absurd hd (List.not_mem_nil d),
   fun m n h => by simpa [depIdGen] using congrArg (fun s => s.data.length) h⟩

theorem finishedDeps_map_path (idGen : Nat → String) (xslFileId : String)
    (pool : List File) :
    ∀ (ps : List String) (n : Nat),
      (finishedDeps idGen xslFileId pool ps n).map (fun d => d.dependencyPath) = ps := by
  intro ps
  induction ps with
  | nil => intro n; simp [finishedDeps]
  | cons p ps ih =>
    intro n
    unfold finishedDeps finishedDep
    cases findDependencyFile pool p <;> simp [ih]

theorem finishedDeps_status (idGen : Nat → String) (xslFileId : String)
    (pool : List File) :
    ∀ (ps : List String) (n : Nat),
      ∀ d ∈ finishedDeps idGen xslFileId pool ps n,
        (∃ f, findDependencyFile pool d.dependencyPath = some f ∧
            d.status = "resolved" ∧ d.resolvedFileId = some f.id) ∨
          (findDependencyFile pool d.dependencyPath = none ∧
            d.status = "missing" ∧ d.resolvedFileId = none) := by
  intro ps
  induction ps with
  | nil => intro n d hd; simp [finishedDeps] at hd
  | cons p ps ih =>
    intro n d hd
    unfold finishedDeps at hd
    rcases List.mem_cons.mp hd with hd0 | hdrest
    · subst hd0
      unfold finishedDep
      cases hfind : findDependencyFile pool p with
      | some f => exact Or.inl ⟨f, by simp [hfind], rfl, rfl⟩
      | none => exact Or.inr ⟨by simp [hfind], rfl, rfl⟩
    · exact ih (n + 1) d hdrest

/-- C6: one resolution pass appends exactly one Dependency record per
include/import directive of the stylesheet, in declaration order with
duplicates preserved (the appended records' paths are exactly the
scanned directive list), and a stylesheet with no directives appends no
records and produces no errors. -/
theorem C6_one_record_per_directive (idGen : Nat → String) (xslFileId : String)
    (pool : List File) (store : List Dependency) (content : String)
    (hfresh : FreshIds idGen store) :
    (resolveDependencies idGen xslFileId pool store content).1 =
      store ++ finishedDeps idGen xslFileId pool (scanDirectives content) 0 ∧
    (finishedDeps idGen xslFileId pool (scanDirectives content) 0).map
      (fun d => d.dependencyPath) = scanDirectives content ∧
    (finishedDeps idGen xslFileId pool (scanDirectives content) 0).length =
      (scanDirectives content).length ∧
    (scanDirectives content = [] →
      (resolveDependencies idGen xslFileId pool store content).1 = store ∧
      (resolveDependencies idGen xslFileId pool store content).2 = []) := by
  have hspec := resolveDepsAux_spec idGen xslFileId pool (scanDirectives content)
    store [] 0 hfresh.2 (fun m _ d hd => hfresh.1 m d hd)
  have hmap := finishedDeps_map_path idGen xslFileId pool (scanDirectives content) 0
  refine ⟨?_, hmap, ?_, ?_⟩
  · unfold resolveDependencies
    rw [hspec]
  · calc (finishedDeps idGen xslFileId pool (scanDirectives content) 0).length
        = ((finishedDeps idGen xslFileId pool (scanDirectives content) 0).map
            (fun d => d.dependencyPath)).length := by simp
      _ = (scanDirectives content).length := by rw [hmap]
  · intro hnil
    unfold resolveDependencies
    rw [hspec, hnil]
    simp [finishedDeps, missingErrors]

/-- Witness for `C6_one_record_per_directive`: two directives for the
same path produce two records, in order, and the empty stylesheet
produces none. -/
theorem C6_one_record_per_directive_witness :
    (resolveDependencies depIdGen "xslId" [] []
        "<xsl:include href=\"A.xsl\"/><xsl:import href=\"A.xsl\"/>").1 =
      [] ++ finishedDeps depIdGen "xslId" []
        (scanDirectives "<xsl:include href=\"A.xsl\"/><xsl:import href=\"A.xsl\"/>") 0 ∧
    (resolveDependencies depIdGen "xslId" [] []
        "<xsl:include href=\"A.xsl\"/><xsl:import href=\"A.xsl\"/>").1.map
      (fun d => (d.dependencyPath, d.status)) =
      [("A.xsl", "missing"), ("A.xsl", "missing")] := by
  refine ⟨(C6_one_record_per_directive depIdGen "xslId" [] [] _ depIdGen_fresh).1, ?_⟩
  decide

/-- A stored file whose original name is `Sub.xsl`. -/
def subFile : File :=
  { id := "f1"
    filename := "stored_1"
    originalName := "Sub.xsl"
    mimeType := "application/xml"
    size := "10"
    path := "uploads/stored_1"
    uploadedAt := 0
    validationStatus := "valid"
    validationError := none
    validatedAt := none }

/-- C7, as stated, is false on the code: for the directive
`href="dir/Sub.xsl"` against a pool holding `Sub.xsl`, the spec-claimed
matcher (exact, then base filename, then fuzzy) finds the file — as does
the `resolveXslIncludes` matcher of the fallback text path — but
`resolveDependencies` marks the Dependency record `missing`, because it
matches only the literal reference string against `originalName` and
stored `filename` (storage.ts 553) with no basename or fuzzy step. -/
theorem C7_basename_counterexample :
    (resolveDependencies depIdGen "xslId" [subFile] [] "<xsl:include href=\"dir/Sub.xsl\"/>").1.map
        (fun d => (d.dependencyPath, d.status, d.resolvedFileId)) =
      [("dir/Sub.xsl", "missing", none)] ∧
    specClaimedFind [subFile] "dir/Sub.xsl" = some subFile ∧
    findIncludeFile [subFile] "dir/Sub.xsl" = some subFile := by
  refine ⟨?_, ?_, ?_⟩ <;> decide

/-- C7 (amended): a Dependency record is marked `resolved`, carrying the
matched file's identity, exactly when the pool holds a file whose
`originalName` or stored `filename` equals the literal reference string
(the `findDependencyFile` matcher); otherwise it is marked `missing`.
The base-filename and fuzzy name-normalization steps are used only by
the fallback text path (`findIncludeFile`), never for Dependency
records. -/
theorem C7_exact_match_only (idGen : Nat → String) (xslFileId : String)
    (pool : List File) (store : List Dependency) (content : String)
    (hfresh : FreshIds idGen store) :
    (resolveDependencies idGen xslFileId pool store content).1 =
      store ++ finishedDeps idGen xslFileId pool (scanDirectives content) 0 ∧
    ∀ d ∈ finishedDeps idGen xslFileId pool (scanDirectives content) 0,
      (∃ f, findDependencyFile pool d.dependencyPath = some f ∧
          d.status = "resolved" ∧ d.resolvedFileId = some f.id) ∨
        (findDependencyFile pool d.dependencyPath = none ∧
          d.status = "missing" ∧ d.resolvedFileId = none) := by
  have hspec := resolveDepsAux_spec idGen xslFileId pool (scanDirectives content)
    store [] 0 hfresh.2 (fun m _ d hd => hfresh.1 m d hd)
  constructor
  · unfold resolveDependencies
    rw [hspec]
  · exact finishedDeps_status idGen xslFileId pool (scanDirectives content) 0

/-- Witness for `C7_exact_match_only`: an exactly-named reference is
resolved to the stored file's identity. -/
theorem C7_exact_match_only_witness :
    (resolveDependencies depIdGen "xslId" [subFile] [] "<xsl:include href=\"Sub.xsl\"/>").1 =
      [] ++ finishedDeps depIdGen "xslId" [subFile]
        (scanDirectives "<xsl:include href=\"Sub.xsl\"/>") 0 ∧
    (resolveDependencies depIdGen "xslId" [subFile] [] "<xsl:include href=\"Sub.xsl\"/>").1.map
        (fun d => (d.dependencyPath, d.status, d.resolvedFileId)) =
      [("Sub.xsl", "resolved", some "f1")] := by
  refine ⟨(C7_exact_match_only depIdGen "xslId" [subFile] [] _ depIdGen_fresh).1, ?_⟩
  decide

/-- The upload path's validation status write (storage.ts 657-661)
applied to a validation outcome: `'valid'`/`'invalid'` from `isValid`,
the error text recorded alongside. -/
def uploadValidationWrite (now : Nat) (f : File) (vr : ValidationResult) : File :=
  updateFileValidation now f (if vr.isValid then "valid" else "invalid") vr.error

/-- C9, as stated, is false on the code: not every validation-style
check is wrapped with the 10-second timeout.  The XSD compliance check
inside `processTransformation` awaits `validateXmlAgainstXsd` directly
(storage.ts 954): at one hour of elapsed time its outcome is still just
the inner result — whereas the upload wrapper at the same elapsed time
resolves to the timeout failure. -/
theorem C9_xsd_stage_unwrapped :
    xsdStageValidation 3600000 { isValid := true, error := none } =
      { isValid := true, error := none } ∧
    validationWithTimeout 3600000 { isValid := true, error := none } =
      { isValid := false, error := some "Validation timeout after 10 seconds" } := by
  constructor
  · rfl
  · decide

/-- C9 (amended): the upload-time file validation checks are wrapped
with a fixed 10-second timeout: whenever the inner check takes at least
10000 ms the wrapper resolves to the timeout failure and the file's
validation status is written `'invalid'` with the timeout-specific
message, while a check finishing under 10 seconds keeps its own result;
the XSD compliance check inside the transformation pipeline is awaited
with no timeout wrapper at all. -/
theorem C9_upload_timeout_only (t : Nat) (r : ValidationResult) (f : File)
    (now : Nat) (h : 10000 ≤ t) :
    validationWithTimeout t r =
      { isValid := false, error := some "Validation timeout after 10 seconds" } ∧
    (uploadValidationWrite now f (validationWithTimeout t r)).validationStatus =
      "invalid" ∧
    (uploadValidationWrite now f (validationWithTimeout t r)).validationError =
      some "Validation timeout after 10 seconds" ∧
    (∀ t' r', t' < 10000 → validationWithTimeout t' r' = r') ∧
    (∀ tq rq, xsdStageValidation tq rq = rq) := by
  have hlt : ¬ t < 10000 := by omega
  refine ⟨?_, ?_, ?_, ?_, fun tq rq => rfl⟩
  · simp [validationWithTimeout, hlt]
  · simp [uploadValidationWrite, updateFileValidation, validationWithTimeout, hlt]
  · simp [uploadValidationWrite, updateFileValidation, validationWithTimeout, hlt]
  · intro t' r' ht'
    simp [validationWithTimeout, ht']

/-- Witness for `C9_upload_timeout_only`: a check stalled for 20 seconds
leaves the file `'invalid'` with the timeout message. -/
theorem C9_upload_timeout_only_witness :
    validationWithTimeout 20000 { isValid := true, error := none } =
      { isValid := false, error := some "Validation timeout after 10 seconds" } ∧
    (uploadValidationWrite 5 subFile
        (validationWithTimeout 20000 { isValid := true, error := none })).validationStatus =
      "invalid" := by
  have h := C9_upload_timeout_only 20000 { isValid := true, error := none } subFile 5
    (by decide)
  exact ⟨h.1, h.2.1⟩

/-! ## The upload route's duplicate-name handling (storage.ts 577-686) -/

/-- An incoming multipart file as multer hands it to the upload route. -/
structure IncomingFile where
  originalname : String
  filename : String
  mimetype : String
  size : String
  path : String
deriving Repr, DecidableEq

/-- The record `MemStorage.createFile` stores (storage.ts 37-49) for the
insert object built at lines 602-613, with the generated storage path
and fresh id. -/
def createFileRecord (id : String) (now : Nat) (newPath : String)
    (inc : IncomingFile) : File :=
  { id := id
    filename := inc.filename
    originalName := inc.originalname
    mimeType := inc.mimetype
    size := inc.size
    path := newPath
    uploadedAt := now
    validationStatus := "pending"
    validationError := none
    validatedAt := none }

/-- The upload loop (storage.ts 586-676): for each incoming file, re-read
the registry; if some stored file already carries the incoming original
name, record the name under `skippedFiles` and leave the registry
untouched (the temporary upload is discarded); otherwise append a fresh
record and collect it under `uploadedFiles`.  The asynchronous
validation scheduled for each new record touches only that record and
is modelled separately. -/
def processUpload (idGen pathGen : Nat → String) (now : Nat) :
    List IncomingFile → List File → List File → List String → Nat →
      List File × List File × List String
  | [], files, uploaded, skipped, _ => (files, uploaded, skipped)
  | inc :: incs, files, uploaded, skipped, k =>
    match files.find? (fun f => f.originalName = inc.originalname) with
    | some _ =>
      processUpload idGen pathGen now incs files uploaded
        (skipped ++ [inc.originalname]) (k + 1)
    | none =>
      processUpload idGen pathGen now incs
        (files ++ [createFileRecord (idGen k) now (pathGen k) inc])
        (uploaded ++ [createFileRecord (idGen k) now (pathGen k) inc])
        skipped (k + 1)

theorem processUpload_filter_frame (idGen pathGen : Nat → String) (now : Nat)
    (name : String) :
    ∀ (incs : List IncomingFile) (files uploaded : List File)
      (skipped : List String) (k : Nat),
      (∃ f ∈ files, f.originalName = name) →
      ((processUpload idGen pathGen now incs files uploaded skipped k).1).filter
          (fun f => f.originalName = name) =
        files.filter (fun f => f.originalName = name) := by
  intro incs
  induction incs with
  | nil => intro files uploaded skipped k hex; rfl
  | cons inc incs ih =>
    intro files uploaded skipped k hex
    unfold processUpload
    cases hfind : files.find? (fun f => f.originalName = inc.originalname) with
    | some f => exact ih files uploaded (skipped ++ [inc.originalname]) (k + 1) hex
    | none =>
      have hnone : ∀ f ∈ files, f.originalName ≠ inc.originalname := by
        intro f hf
        have := List.find?_eq_none.mp hfind f hf
        simpa using this
      have hneq : inc.originalname ≠ name := by
        obtain ⟨f, hf, hfname⟩ := hex
        intro heq
        exact hnone f hf (by rw [hfname, heq])
      have hex' : ∃ f ∈ files ++ [createFileRecord (idGen k) now (pathGen k) inc],
          f.originalName = name := by
        obtain ⟨f, hf, hfname⟩ := hex
        exact ⟨f, List.mem_append_left _ hf, hfname⟩
      rw [ih _ _ _ _ hex']
      rw [List.filter_append]
      have : (([createFileRecord (idGen k) now (pathGen k) inc]).filter
          (fun f => f.originalName = name)) = [] := by
        simp [createFileRecord, hneq]
      rw [this, List.append_nil]

theorem processUpload_skipped_mono (idGen pathGen : Nat → String) (now : Nat)
    (name : String) :
    ∀ (incs : List IncomingFile) (files uploaded : List File)
      (skipped : List String) (k : Nat),
      name ∈ skipped →
      name ∈ (processUpload idGen pathGen now incs files uploaded skipped k).2.2 := by
  intro incs
  induction incs with
  | nil => intro files uploaded skipped k hmem; exact hmem
  | cons inc incs ih =>
    intro files uploaded skipped k hmem
    unfold processUpload
    cases files.find? (fun f => f.originalName = inc.originalname) with
    | some f => exact ih _ _ _ _ (List.mem_append_left _ hmem)
    | none => exact ih _ _ _ _ hmem

theorem processUpload_skips_duplicate (idGen pathGen : Nat → String) (now : Nat) :
    ∀ (incs : List IncomingFile) (files uploaded : List File)
      (skipped : List String) (k : Nat) (inc : IncomingFile),
      inc ∈ incs →
      (∃ f ∈ files, f.originalName = inc.originalname) →
      inc.originalname ∈ (processUpload idGen pathGen now incs files uploaded skipped k).2.2 := by
  intro incs
  induction incs with
  | nil => intro files uploaded skipped k inc hmem; simp at hmem
  | cons inc0 incs ih =>
    intro files uploaded skipped k inc hmem hex
    rcases List.mem_cons.mp hmem with heq | htail
    · subst heq
      unfold processUpload
      cases hfind : files.find? (fun f => f.originalName = inc.originalname) with
      | some f =>
        exact processUpload_skipped_mono idGen pathGen now _ _ _ _ _ _
          (List.mem_append_right _ (List.mem_singleton_self _))
      | none =>
        obtain ⟨f, hf, hfname⟩ := hex
        have := List.find?_eq_none.mp hfind f hf
        simp [hfname] at this
    · unfold processUpload
      cases hfind : files.find? (fun f => f.originalName = inc0.originalname) with
      | some f => exact ih _ _ _ _ _ htail hex
      | none =>
        refine ih _ _ _ _ _ htail ?_
        obtain ⟨f, hf, hfname⟩ := hex
        exact ⟨f, List.mem_append_left _ hf, hfname⟩

theorem processUpload_no_duplicate_created (idGen pathGen : Nat → String) (now : Nat)
    (name : String) :
    ∀ (incs : List IncomingFile) (files uploaded : List File)
      (skipped : List String) (k : Nat),
      (∃ f ∈ files, f.originalName = name) →
      (∀ u ∈ uploaded, u.originalName ≠ name) →
      ∀ u ∈ (processUpload idGen pathGen now incs files uploaded skipped k).2.1,
        u.originalName ≠ name := by
  intro incs
  induction incs with
  | nil => intro files uploaded skipped k hex hup u hu; exact hup u hu
  | cons inc incs ih =>
    intro files uploaded skipped k hex hup u hu
    unfold processUpload at hu
    revert hu
    cases hfind : files.find? (fun f => f.originalName = inc.originalname) with
    | some f => exact fun hu => ih files uploaded _ _ hex hup u hu
    | none =>
      intro hu
      have hnone : ∀ f ∈ files, f.originalName ≠ inc.originalname := by
        intro f hf
        have := List.find?_eq_none.mp hfind f hf
        simpa using this
      have hneq : inc.originalname ≠ name := by
        obtain ⟨f, hf, hfname⟩ := hex
        intro heq
        exact hnone f hf (by rw [hfname, heq])
      refine ih _ _ _ _ ?_ ?_ u hu
      · obtain ⟨f, hf, hfname⟩ := hex
        exact ⟨f, List.mem_append_left _ hf, hfname⟩
      · intro v hv
        rcases List.mem_append.mp hv with hold | hnew
        · exact hup v hold
        · have : v = createFileRecord (idGen k) now (pathGen k) inc := by
            simpa using hnew
          subst this
          simpa [createFileRecord] using hneq

/-- C10: for every incoming file whose original name equals the original
name of an already-stored file, the upload pass leaves the registry
unchanged with respect to that name (the stored records carrying it are
exactly the pre-existing ones, unmodified), creates no uploaded record
with that name, and reports the name among `skippedFiles`. -/
theorem C10_duplicate_upload_skipped (idGen pathGen : Nat → String) (now : Nat)
    (incs : List IncomingFile) (files0 : List File) (inc : IncomingFile)
    (hmem : inc ∈ incs)
    (hex : ∃ f ∈ files0, f.originalName = inc.originalname) :
    ((processUpload idGen pathGen now incs files0 [] [] 0).1).filter
        (fun f => f.originalName = inc.originalname) =
      files0.filter (fun f => f.originalName = inc.originalname) ∧
    inc.originalname ∈ (processUpload idGen pathGen now incs files0 [] [] 0).2.2 ∧
    (∀ u ∈ (processUpload idGen pathGen now incs files0 [] [] 0).2.1,
      u.originalName ≠ inc.originalname) :=
  ⟨processUpload_filter_frame idGen pathGen now inc.originalname incs files0 [] [] 0 hex,
   processUpload_skips_duplicate idGen pathGen now incs files0 [] [] 0 inc hmem hex,
   processUpload_no_duplicate_created idGen pathGen now inc.originalname incs files0 [] [] 0
     hex (fun u hu => absurd hu (List.not_mem_nil u))⟩

/-- Witness for `C10_duplicate_upload_skipped`: re-uploading `Sub.xsl`
over a registry already holding it changes nothing and reports the name
as skipped. -/
theorem C10_duplicate_upload_skipped_witness :
    ((processUpload depIdGen (fun n => "p" ++ String.mk (List.replicate n 'a')) 7
        [⟨"Sub.xsl", "tmp1", "text/xml", "5", "uploads/tmp1"⟩] [subFile] [] [] 0).1).filter
        (fun f => f.originalName = "Sub.xsl") =
      [subFile].filter (fun f => f.originalName = "Sub.xsl") ∧
    "Sub.xsl" ∈ (processUpload depIdGen (fun n => "p" ++ String.mk (List.replicate n 'a')) 7
        [⟨"Sub.xsl", "tmp1", "text/xml", "5", "uploads/tmp1"⟩] [subFile] [] [] 0).2.2 ∧
    (∀ u ∈ (processUpload depIdGen (fun n => "p" ++ String.mk (List.replicate n 'a')) 7
        [⟨"Sub.xsl", "tmp1", "text/xml", "5", "uploads/tmp1"⟩] [subFile] [] [] 0).2.1,
      u.originalName ≠ "Sub.xsl") :=
  C10_duplicate_upload_skipped depIdGen (fun n => "p" ++ String.mk (List.replicate n 'a')) 7
    [⟨"Sub.xsl", "tmp1", "text/xml", "5", "uploads/tmp1"⟩] [subFile]
    ⟨"Sub.xsl", "tmp1", "text/xml", "5", "uploads/tmp1"⟩
    (List.mem_singleton_self _) ⟨subFile, List.mem_singleton_self _, rfl⟩

/-! ## The content normalizer (`preprocessXslContent`, storage.ts 441-528)

Each `String.prototype.replace(regex-with-g, ...)` call is one
left-to-right scan: find the leftmost match, emit the replacement,
resume scanning the input after the match (replacements are never
rescanned within the same call).  Every match consumes at least one
input character, so fuel equal to the input length suffices for the
scan and the fuel-exhausted case is unreachable. -/

/-- One global-replace pass: `step` returns the replacement text and the
input after the match. -/
def replaceScan (step : List Char → Option (List Char × List Char)) :
    Nat → List Char → List Char
  | 0, cs => cs
  | _ + 1, [] => []
  | fuel + 1, c :: rest =>
    match step (c :: rest) with
    | some (repl, rest2) => repl ++ replaceScan step fuel rest2
    | none => c :: replaceScan step fuel rest

/-- Run one replace pass over a string. -/
def runRule (step : List Char → Option (List Char × List Char)) (s : String) : String :=
  String.mk (replaceScan step s.data.length s.data)

/-- Consume a literal case-insensitively (the pattern is given in
lowercase, as all the regex literals here are); return the rest. -/
def dropLitCI : List Char → List Char → Option (List Char)
  | [], cs => some cs
  | _ :: _, [] => none
  | l :: ls, c :: cs => if c.toLower = l then dropLitCI ls cs else none

/-- First occurrence of a lowercase literal (case-insensitively) in the
input: the rest after it, scanning left to right. -/
def findLitCI (pat : List Char) : Nat → List Char → Option (List Char)
  | 0, _ => none
  | fuel + 1, cs =>
    match dropLitCI pat cs with
    | some rest => some rest
    | none =>
      match cs with
      | [] => none
      | _ :: cs' => findLitCI pat fuel cs'

/-- Does the input contain the lowercase literal, case-insensitively? -/
def containsCI (pat cs : List Char) : Bool :=
  (findLitCI pat (cs.length + 1) cs).isSome

/-- Match `<elem[^>]*/>` (flags `gi`) at the head: the first `>` after
the opening literal must be immediately preceded by `/`; the matched
text runs through that `>`. -/
def selfClosingStep (elem repl : List Char) (cs : List Char) :
    Option (List Char × List Char) :=
  match dropLitCI ('<' :: elem) cs with
  | none => none
  | some rest =>
    let run := rest.takeWhile (fun c => c ≠ '>')
    match rest.drop run.length with
    | '>' :: rest2 =>
      if run.getLast? = some '/' then some (repl, rest2) else none
    | _ => none

/-- Match `<elem[^>]*>.*?</elem>` (flags `gis`) at the head: through the
first `>`, then lazily to the first closing tag. -/
def elementBlockStep (elem repl : List Char) (cs : List Char) :
    Option (List Char × List Char) :=
  match dropLitCI ('<' :: elem) cs with
  | none => none
  | some rest =>
    let run := rest.takeWhile (fun c => c ≠ '>')
    match rest.drop run.length with
    | '>' :: rest2 =>
      match findLitCI ('<' :: '/' :: elem ++ ['>']) (rest2.length + 1) rest2 with
      | some rest3 => some (repl, rest3)
      | none => none
    | _ => none

/-- Match `method=["']html["']` (case-insensitive, independent quote
classes) at the head; return the rest. -/
def matchMethodHtml (cs : List Char) : Option (List Char) :=
  match dropLitCI "method=".data cs with
  | none => none
  | some r1 =>
    match r1 with
    | q1 :: r2 =>
      if isQuote q1 then
        match dropLitCI "html".data r2 with
        | some (q2 :: r3) => if isQuote q2 then some r3 else none
        | _ => none
      else none
    | [] => none

/-- The lazy group `([^>]*?)` of the output rule: grow the captured text
one non-`>` character at a time until `method=["']html["']` matches. -/
def outputHtmlTail : Nat → List Char → List Char → Option (List Char × List Char)
  | 0, _, _ => none
  | fuel + 1, acc, cs =>
    match matchMethodHtml cs with
    | some rest2 => some (acc, rest2)
    | none =>
      match cs with
      | [] => none
      | c :: cs' => if c = '>' then none else outputHtmlTail fuel (acc ++ [c]) cs'

/-- Match `<xsl:output([^>]*?)method=["']html["']` (flags `gi`),
replacement `<xsl:output$1method="xml"` (storage.ts 470-473). -/
def outputHtmlStep (cs : List Char) : Option (List Char × List Char) :=
  match dropLitCI "<xsl:output".data cs with
  | none => none
  | some rest =>
    match outputHtmlTail (rest.length + 1) [] rest with
    | some (g1, rest2) =>
      some ("<xsl:output".data ++ g1 ++ "method=\"xml\"".data, rest2)
    | none => none

/-- Match `\s+disable-output-escaping=["'][^"']*["']` (flags `gi`),
replacement empty (storage.ts 476). -/
def doeStep (cs : List Char) : Option (List Char × List Char) :=
  match cs with
  | [] => none
  | c :: _ =>
    if isJsSpace c then
      let sp := cs.takeWhile isJsSpace
      match dropLitCI "disable-output-escaping=".data (cs.drop sp.length) with
      | none => none
      | some (q1 :: r2) =>
        if isQuote q1 then
          let body := r2.takeWhile (fun c => !isQuote c)
          match r2.drop body.length with
          | _ :: r3 => some ([], r3)
          | [] => none
        else none
      | some [] => none
    else none

/-- Match `key\s*\([^)]+\)` (flags `gi`), replacement `""`
(storage.ts 484). -/
def keyCallStep (cs : List Char) : Option (List Char × List Char) :=
  match dropLitCI "key".data cs with
  | none => none
  | some r1 =>
    match r1.drop (r1.takeWhile isJsSpace).length with
    | '(' :: r2 =>
      let body := r2.takeWhile (fun c => c ≠ ')')
      if body.isEmpty then none
      else
        match r2.drop body.length with
        | ')' :: r3 => some ("\"\"".data, r3)
        | _ => none
    | _ => none

/-- Match `\[[^\]]*fname[^\]]*\]` (flags `gi`, `fname` with a literal
open parenthesis), replacement `[position()=1]` (storage.ts 488-489):
the region up to the first `]` must contain the function name. -/
def predicateStep (fname : List Char) (cs : List Char) :
    Option (List Char × List Char) :=
  match cs with
  | '[' :: r1 =>
    let body := r1.takeWhile (fun c => c ≠ ']')
    match r1.drop body.length with
    | ']' :: r2 =>
      if containsCI fname body then some ("[position()=1]".data, r2) else none
    | _ => none
  | _ => none

/-- Match `fname\s*\([^)]*\)` (flags `gi`), fixed replacement
(storage.ts 504 and 506). -/
def fnCallStep (fname repl : List Char) (cs : List Char) :
    Option (List Char × List Char) :=
  match dropLitCI fname cs with
  | none => none
  | some r1 =>
    match r1.drop (r1.takeWhile isJsSpace).length with
    | '(' :: r2 =>
      let body := r2.takeWhile (fun c => c ≠ ')')
      match r2.drop body.length with
      | ')' :: r3 => some (repl, r3)
      | _ => none
    | _ => none

/-- Match `current\s*\(\s*\)` (flags `gi`), replacement `.`
(storage.ts 505). -/
def currentStep (cs : List Char) : Option (List Char × List Char) :=
  match dropLitCI "current".data cs with
  | none => none
  | some r1 =>
    match r1.drop (r1.takeWhile isJsSpace).length with
    | '(' :: r2 =>
      match r2.drop (r2.takeWhile isJsSpace).length with
      | ')' :: r3 => some (".".data, r3)
      | _ => none
    | _ => none

/-- Candidates for the greedy backtracking of `tag[^>]*attr=["']…`:
try each occurrence of the attribute literal followed by a quote inside
the non-`>` run, longest prefix (last occurrence) first; the first
candidate whose quoted tail matches wins. -/
def tryAttrCands (tagOrig attr : List Char) (rest run : List Char)
    (bodyOk : List Char → Bool) (suffix : List Char) :
    List Nat → Option (List Char × List Char)
  | [] => none
  | i :: is =>
    let tailIn := rest.drop (i + attr.length + 1)
    let body := tailIn.takeWhile (fun c => !isQuote c)
    match tailIn.drop body.length with
    | _ :: rest2 =>
      if bodyOk body then
        some (tagOrig ++ run.take i ++ (run.drop i).take attr.length ++
          [run.getD (i + attr.length) ' '] ++ suffix, rest2)
      else tryAttrCands tagOrig attr rest run bodyOk suffix is
    | [] => tryAttrCands tagOrig attr rest run bodyOk suffix is

/-- Match `(tag[^>]*attr=["'])body-pattern["']` (flags `gi`), replacement
`$1` ++ `suffix`: the backtracking family used for the variable,
for-each, template, if and when rules (storage.ts 492-523).  `bodyOk`
states the condition the regex places on the text between the opening
quote and the next quote. -/
def attrRuleStep (tag attr : List Char) (bodyOk : List Char → Bool)
    (suffix : List Char) (cs : List Char) : Option (List Char × List Char) :=
  match dropLitCI tag cs with
  | none => none
  | some rest =>
    let run := rest.takeWhile (fun c => c ≠ '>')
    let cands := ((List.range (run.length + 1)).filter (fun i =>
      (dropLitCI attr (run.drop i)).isSome &&
      (decide (i + attr.length < run.length) &&
        isQuote (run.getD (i + attr.length) ' ')))).reverse
    tryAttrCands (cs.take tag.length) attr rest run bodyOk suffix cands

/-- The declarations the fallback engine cannot interpret
(storage.ts 447-453), in application order. -/
def unsupportedElements : List String :=
  ["xsl:strip-space", "xsl:preserve-space", "xsl:decimal-format",
   "xsl:key", "xsl:namespace-alias"]

/-- The inert marker comment left for a removed declaration. -/
def removedComment (e : String) : List Char :=
  ("<!-- Removed unsupported " ++ e ++ " -->").data

/-- The unsupported-declaration removal loop (storage.ts 455-467): per
element, first the self-closing form, then the block form. -/
def removeUnsupported (s : String) : String :=
  unsupportedElements.foldl (fun acc e =>
    runRule (elementBlockStep e.data (removedComment e))
      (runRule (selfClosingStep e.data (removedComment e)) acc)) s

/-- Body condition of the template/if/when rules: the text between the
quotes must contain `key(`. -/
def bodyHasKey (b : List Char) : Bool :=
  containsCI "key(".data b

/-- `preprocessXslContent` (storage.ts 441-528): the fourteen text
rewrites of the content normalizer, in source order. -/
def preprocessXslContent (s : String) : String :=
  let s1 := removeUnsupported s
  let s2 := runRule outputHtmlStep s1
  let s3 := runRule doeStep s2
  let s4 := runRule keyCallStep s3
  let s5 := runRule (predicateStep "key(".data) s4
  let s6 := runRule (predicateStep "generate-id(".data) s5
  let s7 := runRule (attrRuleStep "<xsl:variable".data "select=".data
    (fun _ => true) "*\"".data) s6
  let s8 := runRule (attrRuleStep "<xsl:for-each".data "select=".data
    (fun b => decide ('|' ∈ b)) "*\"".data) s7
  let s9 := runRule (fnCallStep "generate-id".data "position()".data) s8
  let s10 := runRule currentStep s9
  let s11 := runRule (fnCallStep "document".data ".".data) s10
  let s12 := runRule (attrRuleStep "<xsl:template".data "match=".data
    bodyHasKey "*\"".data) s11
  let s13 := runRule (attrRuleStep "<xsl:if".data "test=".data
    bodyHasKey "true()\"".data) s12
  let s14 := runRule (attrRuleStep "<xsl:when".data "test=".data
    bodyHasKey "true()\"".data) s13
  s14

/-- C8 is false on the code (and the code contradicts the spec's stated
idempotence property): for the stylesheet text
`<xsl:output method="html" method="html"/>`, the first normalization
pass rewrites only the first `method="html"` (scanning resumes after the
match), and a second pass then rewrites the second one, so
`normalize (normalize x) ≠ normalize x`. -/
theorem C8_not_idempotent :
    preprocessXslContent "<xsl:output method=\"html\" method=\"html\"/>" =
      "<xsl:output method=\"xml\" method=\"html\"/>" ∧
    preprocessXslContent
        (preprocessXslContent "<xsl:output method=\"html\" method=\"html\"/>") =
      "<xsl:output method=\"xml\" method=\"xml\"/>" ∧
    preprocessXslContent
        (preprocessXslContent "<xsl:output method=\"html\" method=\"html\"/>") ≠
      preprocessXslContent "<xsl:output method=\"html\" method=\"html\"/>" := by
  refine ⟨?_, ?_, ?_⟩ <;> decide

end XT
